import Mathlib

/-!
Shallow embedding of the ray tracer in src/src/main.rs.

The Rust program renders a scene by recursive ray tracing.  Its `f64`
arithmetic is modelled by exact real arithmetic (`ℝ`); `f64::sqrt` by
`Real.sqrt`, `f64::powf` by `Real.rpow`, `nalgebra` 3-vectors by `Vec3`
below.  Machine-integer pixel indices and the bounce counter are modelled
by `ℕ` (the `u8` bounce counter never exceeds 11 along any reachable call,
far below 255).  Rust `Option` is Lean `Option`; iterator combinators
(`filter_map`, `filter`, `min_by`, `sum`) are modelled by the matching
`List` folds with the same order and tie-breaking behaviour as the Rust
standard library (`min_by` keeps the first of equally minimal elements).
-/

noncomputable section
namespace Raytracer

/-- Three real components, modelling `nalgebra::Vector3<f64>`. -/
structure Vec3 where
  x : ℝ
  y : ℝ
  z : ℝ

namespace Vec3

instance : Zero Vec3 := ⟨⟨0, 0, 0⟩⟩
instance : Add Vec3 := ⟨fun a b => ⟨a.x + b.x, a.y + b.y, a.z + b.z⟩⟩
instance : Sub Vec3 := ⟨fun a b => ⟨a.x - b.x, a.y - b.y, a.z - b.z⟩⟩
instance : SMul ℝ Vec3 := ⟨fun r v => ⟨r * v.x, r * v.y, r * v.z⟩⟩

@[simp] theorem zero_x : (0 : Vec3).x = 0 := rfl
@[simp] theorem zero_y : (0 : Vec3).y = 0 := rfl
@[simp] theorem zero_z : (0 : Vec3).z = 0 := rfl
@[simp] theorem add_x (a b : Vec3) : (a + b).x = a.x + b.x := rfl
@[simp] theorem add_y (a b : Vec3) : (a + b).y = a.y + b.y := rfl
@[simp] theorem add_z (a b : Vec3) : (a + b).z = a.z + b.z := rfl
@[simp] theorem sub_x (a b : Vec3) : (a - b).x = a.x - b.x := rfl
@[simp] theorem sub_y (a b : Vec3) : (a - b).y = a.y - b.y := rfl
@[simp] theorem sub_z (a b : Vec3) : (a - b).z = a.z - b.z := rfl
@[simp] theorem smul_x (r : ℝ) (v : Vec3) : (r • v).x = r * v.x := rfl
@[simp] theorem smul_y (r : ℝ) (v : Vec3) : (r • v).y = r * v.y := rfl
@[simp] theorem smul_z (r : ℝ) (v : Vec3) : (r • v).z = r * v.z := rfl

theorem eq_iff (a b : Vec3) : a = b ↔ a.x = b.x ∧ a.y = b.y ∧ a.z = b.z := by
  cases a
  cases b
  simp [Vec3.mk.injEq]

/-- Componentwise product, modelling `Vector3::component_mul`. -/
def component_mul (a b : Vec3) : Vec3 := ⟨a.x * b.x, a.y * b.y, a.z * b.z⟩

/-- Dot product of two vectors. -/
def dot (a b : Vec3) : ℝ := a.x * b.x + a.y * b.y + a.z * b.z

/-- Cross product of two vectors. -/
def cross (a b : Vec3) : Vec3 :=
  ⟨a.y * b.z - a.z * b.y, a.z * b.x - a.x * b.z, a.x * b.y - a.y * b.x⟩

/-- Squared euclidean norm, modelling `Vector3::norm_squared`. -/
def norm_squared (v : Vec3) : ℝ := v.dot v

/-- Euclidean norm, modelling `Vector3::norm`. -/
def norm (v : Vec3) : ℝ := Real.sqrt v.norm_squared

/-- Normalization `v / v.norm`, modelling `Vector3::normalize`.  On the
zero vector the Rust code divides by zero (producing NaN components); in
the real model division by zero yields the zero vector. -/
def normalize (v : Vec3) : Vec3 := (1 / v.norm) • v

theorem add_zero (v : Vec3) : v + 0 = 0 + v := by
  simp [eq_iff]

theorem add_zero_right (v : Vec3) : v + 0 = v := by
  simp [eq_iff]

theorem sub_self (v : Vec3) : v - v = 0 := by
  simp [eq_iff]

theorem norm_squared_nonneg (v : Vec3) : 0 ≤ v.norm_squared := by
  have hx := sq_nonneg v.x
  have hy := sq_nonneg v.y
  have hz := sq_nonneg v.z
  simp only [norm_squared, dot]
  nlinarith

theorem norm_squared_eq_zero_iff (v : Vec3) : v.norm_squared = 0 ↔ v = 0 := by
  constructor
  · intro h
    simp only [norm_squared, dot] at h
    have hx : v.x = 0 := by nlinarith [sq_nonneg v.x, sq_nonneg v.y, sq_nonneg v.z]
    have hy : v.y = 0 := by nlinarith [sq_nonneg v.x, sq_nonneg v.y, sq_nonneg v.z]
    have hz : v.z = 0 := by nlinarith [sq_nonneg v.x, sq_nonneg v.y, sq_nonneg v.z]
    rw [eq_iff]
    simp [hx, hy, hz]
  · intro h
    subst h
    simp [norm_squared, dot]

theorem norm_nonneg (v : Vec3) : 0 ≤ v.norm := Real.sqrt_nonneg _

theorem norm_eq_zero_iff (v : Vec3) : v.norm = 0 ↔ v = 0 := by
  rw [norm, Real.sqrt_eq_zero (norm_squared_nonneg v), norm_squared_eq_zero_iff]

theorem norm_smul (r : ℝ) (v : Vec3) : (r • v).norm = |r| * v.norm := by
  have h : (r • v).norm_squared = r ^ 2 * v.norm_squared := by
    simp only [norm_squared, dot, smul_x, smul_y, smul_z]
    ring
  rw [norm, h, Real.sqrt_mul (sq_nonneg r), Real.sqrt_sq_eq_abs, ← norm]

/-- Normalizing a nonzero vector yields a unit vector. -/
theorem norm_normalize (v : Vec3) (h : v ≠ 0) : v.normalize.norm = 1 := by
  have hn : v.norm ≠ 0 := fun h0 => h ((norm_eq_zero_iff v).mp h0)
  have hpos : 0 < v.norm := lt_of_le_of_ne (norm_nonneg v) (Ne.symm hn)
  rw [normalize, norm_smul, abs_of_pos (by positivity)]
  field_simp

end Vec3

/-- World-up constant `UP` from the source. -/
def UP : Vec3 := ⟨0, 0, 1⟩

/-- Bounce ceiling `MAX_BOUNCES` from the source. -/
def MAX_BOUNCES : ℕ := 10

/-- A ray: origin and (not necessarily unit) direction. -/
structure Ray where
  origin : Vec3
  direction : Vec3

/-- The point `origin + t * direction`, modelling `Ray::extend`. -/
def Ray.extend (r : Ray) (t : ℝ) : Vec3 := r.origin + t • r.direction

/-- Material coefficients, as in the source `struct Material`. -/
structure Material where
  colour : Vec3
  k_diffuse : ℝ
  k_ambient : ℝ
  k_specular : ℝ
  k_reflect : ℝ
  shine : ℝ

/-- A point light, as in the source `struct LightSource`. -/
structure LightSource where
  colour : Vec3
  pos : Vec3

/-- A ray-surface hit, as in the source `struct Intersection`. -/
structure Intersection where
  t : ℝ
  pos : Vec3
  normal : Vec3

/-- The closed shape variant type from the source. -/
inductive Shape where
  | sphere (centre : Vec3) (radius : ℝ) : Shape
  | plane (point : Vec3) (normal : Vec3) : Shape

/-- Rust `Iterator::min_by` with a total key comparison: the fold keeps the
accumulator unless the next element is strictly smaller, so the first of
equally minimal elements wins, exactly as `std::cmp::min_by` does. -/
def min_by {α : Type} (key : α → ℝ) : List α → Option α
  | [] => none
  | x :: xs => some (xs.foldl (fun acc y => if key acc > key y then y else acc) x)

/-- The per-shape intersection test, modelling `Shape::intersection`. -/
def Shape.intersection (s : Shape) (ray : Ray) (min_distance : ℝ) : Option Intersection :=
  match s with
  | .sphere centre radius =>
    let a := ray.direction.norm_squared
    let difference := ray.origin - centre
    let b := 2 * ray.direction.dot difference
    let c := difference.norm_squared - radius * radius
    let discriminant := b * b - 4 * a * c
    if discriminant < 0 then none
    else
      let t1 := (-b + Real.sqrt discriminant) / (2 * a)
      let t2 := (-b - Real.sqrt discriminant) / (2 * a)
      (min_by id (([t1, t2]).filter (fun t => decide (min_distance < t)))).map (fun t =>
        let point := ray.extend t
        let normal := (point - centre).normalize
        ⟨t, point, normal⟩)
  | .plane point normal =>
    let n_dot_d := normal.dot ray.direction
    if n_dot_d = 0 then none
    else
      let a_minus_p := point - ray.origin
      let t := normal.dot a_minus_p / n_dot_d
      if t ≤ min_distance then none
      else some ⟨t, ray.extend t, normal⟩

/-- A shape paired with its material, as in the source `struct SceneObject`. -/
structure SceneObject where
  material : Material
  shape : Shape

/-- `SceneObject::intersect` delegates to the shape. -/
def SceneObject.intersect (obj : SceneObject) (ray : Ray) (min_distance : ℝ) :
    Option Intersection :=
  obj.shape.intersection ray min_distance

/-- The generic `clamp` from the source: `min` if below, `max` if above. -/
def clamp {α : Type} [LinearOrder α] (x mn mx : α) : α :=
  if x < mn then mn else if x > mx then mx else x

/-- Truncation toward zero of a real number, the rounding mode of a Rust
float-to-integer `as` cast. -/
def trunc_to_int (x : ℝ) : ℤ := if 0 ≤ x then ⌊x⌋ else ⌈x⌉

/-- The saturating Rust cast `f64 as i32`: truncate toward zero, then
saturate at the `i32` bounds. -/
def i32_cast (x : ℝ) : ℤ := max (-2147483648) (min 2147483647 (trunc_to_int x))

/-- `channel_float_to_int` from the source: `(value * 255.0) as i32`,
clamped to `[0, 255]` (the final `as u8` is the identity on that range). -/
def channel_float_to_int (value : ℝ) : ℤ :=
  let integer := i32_cast (value * 255)
  clamp integer 0 255

/-- The camera model from the source. -/
structure Camera where
  position : Vec3
  direction : Vec3
  screen_distance : ℝ
  screen_width : ℝ
  screen_height : ℝ
  screen_columns : ℕ
  screen_rows : ℕ

/-- `Camera::get_basis_vectors`. -/
def Camera.get_basis_vectors (c : Camera) : Vec3 × Vec3 × Vec3 :=
  let u := c.direction.normalize
  let v := u.cross UP
  let w := v.cross u
  (u, v, w)

/-- `Camera::get_ray`: the primary ray through pixel `(x, y)`.  The Rust
`i64` divisions and subtractions act on non-negative `u32` values and are
modelled by `ℕ` division cast into `ℤ`. -/
def Camera.get_ray (c : Camera) (x y : ℕ) : Ray :=
  let x_screen : ℝ :=
    (((x : ℤ) - ((c.screen_columns / 2 : ℕ) : ℤ) : ℤ) : ℝ)
      / (c.screen_columns : ℝ) * c.screen_width * 0.5
  let y_screen : ℝ :=
    (((y : ℤ) - ((c.screen_rows / 2 : ℕ) : ℤ) : ℤ) : ℝ)
      / (c.screen_rows : ℝ) * c.screen_height * (-0.5)
  let uvw := c.get_basis_vectors
  { origin := c.position
    direction := (c.screen_distance • uvw.1) + (x_screen • uvw.2.1) + (y_screen • uvw.2.2) }

/-- The aggregate scene, as in the source `struct Scene`. -/
structure Scene where
  camera : Camera
  default_colour : Vec3
  ambient_light : Vec3
  lights : List LightSource
  objects : List SceneObject

/-- `Scene::_get_intersection`: the nearest qualifying hit over all
objects, paired with the material of the object hit. -/
def Scene.get_intersection (s : Scene) (ray : Ray) (min_distance : ℝ) :
    Option (Intersection × Material) :=
  min_by (fun p => p.1.t)
    (s.objects.filterMap (fun object =>
      (object.intersect ray min_distance).map (fun x => (x, object.material))))

/-- `Scene::_get_diffuse_lighting` (the `k_diffuse` factor is applied by
the caller). -/
def Scene.get_diffuse_lighting (_s : Scene) (intersection : Intersection)
    (material : Material) (light : LightSource) (ray : Ray) : Vec3 :=
  let coeff := clamp (intersection.normal.dot ray.direction) 0 1
  coeff • (light.colour.component_mul material.colour)

/-- `Scene::_get_specular_lighting` (the `k_specular` factor is applied by
the caller).  Note: `l` and `v` are not normalized before being summed, and
the clamp to `[0, 1]` is applied after the exponentiation. -/
def Scene.get_specular_lighting (_s : Scene) (intersection : Intersection)
    (material : Material) (light : LightSource) (ray : Ray) : Vec3 :=
  let l := light.pos - intersection.pos
  let v := ray.origin - intersection.pos
  let h := (l + v).normalize
  let coeff := (h.dot intersection.normal) ^ material.shine
  (clamp coeff 0 1) • light.colour

/-- The shadow ray built inside `Scene::_get_surface_point_colour`: origin
at the hit point, direction the normalized vector toward the light. -/
def shadow_ray (intersection : Intersection) (light : LightSource) : Ray :=
  { origin := intersection.pos
    direction := (light.pos - intersection.pos).normalize }

/-- Sum of a list of vectors (Rust `Iterator::sum`). -/
def vsum (l : List Vec3) : Vec3 := l.foldl (· + ·) 0

/-- `Scene::_get_surface_point_colour`: ambient term plus, for every light
whose shadow ray (minimum distance `0.1`) hits nothing, the diffuse and
specular contributions.  The ray handed to the two lighting functions is
the shadow ray itself. -/
def Scene.get_surface_point_colour (s : Scene) (intersection : Intersection)
    (material : Material) : Vec3 :=
  let ambient := material.k_ambient • (s.ambient_light.component_mul material.colour)
  let light_dependent_colouring := vsum
    (((s.lights.filterMap (fun light =>
        let ray := shadow_ray intersection light
        let t := s.get_intersection ray 0.1
        if t.isSome then none else some (light, ray)))).map
      (fun p =>
        let diffuse_light :=
          material.k_diffuse • s.get_diffuse_lighting intersection material p.1 p.2
        let specular_reflectance :=
          material.k_specular • s.get_specular_lighting intersection material p.1 p.2
        diffuse_light + specular_reflectance))
  ambient + light_dependent_colouring

/-- `Scene::_get_ray_colour`: nearest hit, local colour, plus the
recursive reflection contribution; the scene default colour when the ray
hits nothing.  The recursion is on the bounce counter, which the
reflection branch increments by one; it stops as soon as the counter
exceeds `MAX_BOUNCES` (or the material is non-reflective). -/
def Scene.get_ray_colour (s : Scene) (ray : Ray) (min_distance : ℝ)
    (num_bounces : ℕ) : Vec3 :=
  match s.get_intersection ray min_distance with
  | none => s.default_colour
  | some (i, m) =>
    let object_colour := s.get_surface_point_colour i m
    let reflection :=
      if _h : MAX_BOUNCES < num_bounces ∨ m.k_reflect = 0 then (0 : Vec3)
      else
        let ray_proj_normal := (ray.direction.dot i.normal) • i.normal
        let reflected_ray_direction := ray.direction - (2 : ℝ) • ray_proj_normal
        let reflected_ray : Ray := ⟨i.pos, reflected_ray_direction⟩
        m.k_reflect • s.get_ray_colour reflected_ray 0.0001 (num_bounces + 1)
    object_colour + reflection
termination_by MAX_BOUNCES + 1 - num_bounces
decreasing_by
  omega

/-- `Scene::_get_reflection`: zero once the counter exceeds the ceiling or
the material is non-reflective, else the attenuated colour of the mirrored
ray one bounce deeper. -/
def Scene.get_reflection (s : Scene) (intersection : Intersection)
    (material : Material) (ray : Ray) (num_bounces : ℕ) : Vec3 :=
  if MAX_BOUNCES < num_bounces ∨ material.k_reflect = 0 then (0 : Vec3)
  else
    let ray_proj_normal := (ray.direction.dot intersection.normal) • intersection.normal
    let reflected_ray_direction := ray.direction - (2 : ℝ) • ray_proj_normal
    let reflected_ray : Ray := ⟨intersection.pos, reflected_ray_direction⟩
    material.k_reflect • s.get_ray_colour reflected_ray 0.0001 (num_bounces + 1)

/-- `Scene::render_to_file` maps `channel_float_to_int` over the traced
colour of the pixel ray; this is the per-pixel display triple. -/
def Scene.render_pixel (s : Scene) (x y : ℕ) : ℤ × ℤ × ℤ :=
  let ray := s.camera.get_ray x y
  let rgb := s.get_ray_colour ray 0 0
  (channel_float_to_int rgb.x, channel_float_to_int rgb.y, channel_float_to_int rgb.z)

/-- An evaluation schedule for `ImageBuffer::from_par_fn`: the pixels are
computed in some order (any interleaving of the parallel workers) and each
result is stored at its own coordinate; `render_fold` is the resulting
partial image. -/
def render_fold (s : Scene) (order : List (ℕ × ℕ)) : ℕ × ℕ → Option (ℤ × ℤ × ℤ) :=
  order.foldl
    (fun acc p q => if q = p then some (s.render_pixel p.1 p.2) else acc q)
    (fun _ => none)

/-! ### Fuel-indexed variant of the ray-colour recursion

`get_ray_colour_fuel` performs at most `fuel` nested calls and returns zero
when the fuel runs out; it makes the recursion-depth bound of the bounce
ceiling provable as a statement rather than only as a side effect of the
termination checker. -/

/-- `Scene::_get_ray_colour` restricted to at most `fuel` nested calls. -/
def get_ray_colour_fuel (s : Scene) : ℕ → Ray → ℝ → ℕ → Vec3
  | 0, _, _, _ => 0
  | fuel + 1, ray, min_distance, num_bounces =>
    match s.get_intersection ray min_distance with
    | none => s.default_colour
    | some (i, m) =>
      s.get_surface_point_colour i m +
      (if MAX_BOUNCES < num_bounces ∨ m.k_reflect = 0 then (0 : Vec3)
       else
         let ray_proj_normal := (ray.direction.dot i.normal) • i.normal
         let reflected_ray_direction := ray.direction - (2 : ℝ) • ray_proj_normal
         m.k_reflect •
           get_ray_colour_fuel s fuel ⟨i.pos, reflected_ray_direction⟩ 0.0001
             (num_bounces + 1))

/-! ### Helper lemmas on the embedded combinators -/

theorem min_by_eq_none {α : Type} (key : α → ℝ) (l : List α) :
    min_by key l = none ↔ l = [] := by
  cases l <;> simp [min_by]

theorem foldl_min_mem {α : Type} (key : α → ℝ) (x : α) (xs : List α) :
    xs.foldl (fun acc y => if key acc > key y then y else acc) x ∈ x :: xs := by
  induction xs generalizing x with
  | nil => simp
  | cons y ys ih =>
    simp only [List.foldl_cons]
    rcases List.mem_cons.mp (ih (if key x > key y then y else x)) with h | h
    · rw [h]
      by_cases hxy : key x > key y
      · simp [hxy]
      · simp [hxy]
    · exact List.mem_cons_of_mem _ (List.mem_cons_of_mem _ h)

theorem foldl_min_le {α : Type} (key : α → ℝ) (x : α) (xs : List α) :
    ∀ b ∈ x :: xs,
      key (xs.foldl (fun acc y => if key acc > key y then y else acc) x) ≤ key b := by
  induction xs generalizing x with
  | nil =>
    intro b hb
    simp only [List.mem_singleton] at hb
    subst hb
    simp
  | cons y ys ih =>
    intro b hb
    simp only [List.foldl_cons]
    have h2 : key (if key x > key y then y else x) ≤ key x ∧
        key (if key x > key y then y else x) ≤ key y := by
      by_cases hxy : key x > key y
      · simp only [if_pos hxy]
        exact ⟨le_of_lt hxy, le_refl _⟩
      · simp only [if_neg hxy]
        exact ⟨le_refl _, le_of_not_lt hxy⟩
    have hinit := ih (if key x > key y then y else x) _ (List.mem_cons_self _ _)
    rcases List.mem_cons.mp hb with rfl | hb2
    · exact le_trans hinit h2.1
    · rcases List.mem_cons.mp hb2 with rfl | hb3
      · exact le_trans hinit h2.2
      · exact ih _ b (List.mem_cons_of_mem _ hb3)

/-- The result of `min_by` is an element of the list that minimizes the key. -/
theorem min_by_spec {α : Type} (key : α → ℝ) (l : List α) (a : α)
    (h : min_by key l = some a) : a ∈ l ∧ ∀ b ∈ l, key a ≤ key b := by
  match l with
  | [] => simp [min_by] at h
  | x :: xs =>
    simp only [min_by, Option.some.injEq] at h
    subst h
    exact ⟨foldl_min_mem key x xs, foldl_min_le key x xs⟩

/-- Unfolding equation of the ray-colour recursion, phrased through
`Scene.get_reflection` exactly as the source composes the two functions. -/
theorem Scene.get_ray_colour_eq (s : Scene) (ray : Ray) (min_distance : ℝ)
    (num_bounces : ℕ) :
    s.get_ray_colour ray min_distance num_bounces =
      match s.get_intersection ray min_distance with
      | none => s.default_colour
      | some (i, m) =>
          s.get_surface_point_colour i m + s.get_reflection i m ray num_bounces := by
  rw [Scene.get_ray_colour]
  rcases hI : s.get_intersection ray min_distance with _ | ⟨i, m⟩
  · rfl
  · simp only []
    rw [Scene.get_reflection]
    rcases Classical.em (MAX_BOUNCES < num_bounces ∨ m.k_reflect = 0) with hc | hc
    · rw [dif_pos hc, if_pos hc]
    · rw [dif_neg hc, if_neg hc]

/-- Everything `Shape::intersection` guarantees about a returned hit:
position on the ray at parameter `t`, the parameter strictly beyond the
supplied minimum, and the exact normal formula of each variant. -/
theorem shape_intersection_some {sh : Shape} {ray : Ray} {min_distance : ℝ}
    {i : Intersection} (h : sh.intersection ray min_distance = some i) :
    i.pos = ray.extend i.t ∧ min_distance < i.t ∧
    (∀ centre radius, sh = .sphere centre radius → i.normal = (i.pos - centre).normalize) ∧
    (∀ point n, sh = .plane point n → i.normal = n) := by
  cases sh with
  | sphere centre radius =>
    simp only [Shape.intersection] at h
    split at h
    · exact absurd h (by simp)
    · rcases Option.map_eq_some'.mp h with ⟨t, hmin, hi⟩
      have hmem := (min_by_spec _ _ _ hmin).1
      simp only [List.mem_filter, decide_eq_true_eq] at hmem
      subst hi
      refine ⟨rfl, hmem.2, ?_, ?_⟩
      · intro c r hc
        cases hc
        rfl
      · intro p n hp
        cases hp
  | plane point n =>
    simp only [Shape.intersection] at h
    split at h
    · exact absurd h (by simp)
    · split at h
      · exact absurd h (by simp)
      · rename_i hd ht
        have hi := Option.some.inj h
        subst hi
        refine ⟨rfl, lt_of_not_le ht, ?_, ?_⟩
        · intro c r hc
          cases hc
        · intro p2 n2 hp
          cases hp
          rfl

/-- A vector difference vanishes exactly when the vectors agree. -/
theorem Vec3.sub_eq_zero_iff (a b : Vec3) : a - b = 0 ↔ a = b := by
  rw [Vec3.eq_iff, Vec3.eq_iff]
  simp [sub_eq_zero]

/-! ### The claim-side (specification-worded) definitions

Each is written from the words of a claim, to be compared against the
definitions above, which are written from the source. -/

/-- The qualifying condition exactly as claim C1 words it: `t` strictly
greater than `min_distance`, or `t ≥ min_distance` for primary rays, where
`min_distance = 0`. -/
def claimed_qualifies (min_distance t : ℝ) : Prop :=
  if min_distance = 0 then min_distance ≤ t else min_distance < t

instance (min_distance t : ℝ) : Decidable (claimed_qualifies min_distance t) :=
  decidable_of_iff (if min_distance = 0 then min_distance ≤ t else min_distance < t) Iff.rfl

/-- `Shape::intersection` as claim C1 describes it, with the qualifying
condition `claimed_qualifies` in place of the strict comparison. -/
def Shape.intersection_claimed (s : Shape) (ray : Ray) (min_distance : ℝ) :
    Option Intersection :=
  match s with
  | .sphere centre radius =>
    let a := ray.direction.norm_squared
    let difference := ray.origin - centre
    let b := 2 * ray.direction.dot difference
    let c := difference.norm_squared - radius * radius
    let discriminant := b * b - 4 * a * c
    if discriminant < 0 then none
    else
      let t1 := (-b + Real.sqrt discriminant) / (2 * a)
      let t2 := (-b - Real.sqrt discriminant) / (2 * a)
      (min_by id (([t1, t2]).filter (fun t => decide (claimed_qualifies min_distance t)))).map
        (fun t => ⟨t, ray.extend t, (ray.extend t - centre).normalize⟩)
  | .plane point normal =>
    let n_dot_d := normal.dot ray.direction
    if n_dot_d = 0 then none
    else
      let t := normal.dot (point - ray.origin) / n_dot_d
      if claimed_qualifies min_distance t then some ⟨t, ray.extend t, normal⟩ else none

/-- `Scene::_get_intersection` as claim C1 describes it. -/
def Scene.get_intersection_claimed (s : Scene) (ray : Ray) (min_distance : ℝ) :
    Option (Intersection × Material) :=
  min_by (fun p => p.1.t)
    (s.objects.filterMap (fun object =>
      (object.shape.intersection_claimed ray min_distance).map
        (fun x => (x, object.material))))

/-- The specular term exactly as claim C3 words it: unit light and view
directions, their normalized sum as half vector, and the clamp applied to
the dot product before the `shine` exponent. -/
def specular_claimed (intersection : Intersection) (material : Material)
    (light : LightSource) (ray : Ray) : Vec3 :=
  let light_direction := (light.pos - intersection.pos).normalize
  let view_direction := (ray.origin - intersection.pos).normalize
  let half_vector := (light_direction + view_direction).normalize
  material.k_specular •
    ((clamp (half_vector.dot intersection.normal) 0 1) ^ material.shine) • light.colour

/-- The channel conversion exactly as claim C5 words it:
`clamp(round(value * 255), 0, 255)`. -/
def channel_claimed (value : ℝ) : ℤ := clamp (round (value * 255)) 0 255

/-! ### Named sphere-root abbreviations (the quantities of claim C6) -/

/-- Coefficient `a` of the sphere quadratic. -/
def sphere_a (ray : Ray) : ℝ := ray.direction.norm_squared

/-- Coefficient `b` of the sphere quadratic. -/
def sphere_b (centre : Vec3) (ray : Ray) : ℝ :=
  2 * ray.direction.dot (ray.origin - centre)

/-- Coefficient `c` of the sphere quadratic. -/
def sphere_c (centre : Vec3) (radius : ℝ) (ray : Ray) : ℝ :=
  (ray.origin - centre).norm_squared - radius * radius

/-- The discriminant of the sphere quadratic. -/
def sphere_disc (centre : Vec3) (radius : ℝ) (ray : Ray) : ℝ :=
  sphere_b centre ray * sphere_b centre ray - 4 * sphere_a ray * sphere_c centre radius ray

/-- The root `t1 = (-b + sqrt disc) / (2 a)` computed by the source. -/
def sphere_root1 (centre : Vec3) (radius : ℝ) (ray : Ray) : ℝ :=
  (-(sphere_b centre ray) + Real.sqrt (sphere_disc centre radius ray)) / (2 * sphere_a ray)

/-- The root `t2 = (-b - sqrt disc) / (2 a)` computed by the source. -/
def sphere_root2 (centre : Vec3) (radius : ℝ) (ray : Ray) : ℝ :=
  (-(sphere_b centre ray) - Real.sqrt (sphere_disc centre radius ray)) / (2 * sphere_a ray)

/-- The sphere branch of `Shape::intersection`, re-read through the named
root abbreviations (definitional). -/
theorem sphere_intersection_eq (centre : Vec3) (radius : ℝ) (ray : Ray)
    (min_distance : ℝ) :
    Shape.intersection (.sphere centre radius) ray min_distance =
      if sphere_disc centre radius ray < 0 then none
      else
        (min_by id
          (([sphere_root1 centre radius ray, sphere_root2 centre radius ray]).filter
            (fun t => decide (min_distance < t)))).map
          (fun t => ⟨t, ray.extend t, (ray.extend t - centre).normalize⟩) := rfl

/-! ### The partial float comparison of the source (claim C10)

`FVal` is an `f64` as the comparison sees it: either NaN or a real value.
`cmpMaybe` models `partial_cmp`, which returns `None` when either side is
NaN; `min_by_checked` models `min_by(|a, b| a.partial_cmp(&b).unwrap())`
with the potential `unwrap` panic reified as the outer `none`. -/

/-- An `f64` as `partial_cmp` sees it: NaN or an ordered real value. -/
inductive FVal where
  | nan : FVal
  | val : ℝ → FVal

/-- `f64::partial_cmp`: no ordering when either operand is NaN. -/
def FVal.cmpMaybe : FVal → FVal → Option Ordering
  | .val a, .val b => some (compare a b)
  | _, _ => none

/-- `min_by` with the unwrapped partial comparison; the outer `none` is
the `unwrap` panic. -/
def min_by_checked {α : Type} (key : α → FVal) : List α → Option (Option α)
  | [] => some none
  | x :: xs =>
    (xs.foldlM (fun acc y =>
      match (key acc).cmpMaybe (key y) with
      | none => none
      | some Ordering.gt => some y
      | some _ => some acc) x).map some

/-- `Scene::_get_intersection` with the panic branch reified. -/
def Scene.get_intersection_checked (s : Scene) (ray : Ray) (min_distance : ℝ) :
    Option (Option (Intersection × Material)) :=
  min_by_checked (fun p => FVal.val p.1.t)
    (s.objects.filterMap (fun object =>
      (object.intersect ray min_distance).map (fun x => (x, object.material))))

/-- The sphere-branch root selection of `Shape::intersection` with the
panic branch reified. -/
def sphere_root_selection_checked (t1 t2 min_distance : ℝ) : Option (Option ℝ) :=
  min_by_checked FVal.val (([t1, t2]).filter (fun t => decide (min_distance < t)))

theorem foldlM_cmp_eq {α : Type} (key : α → ℝ) (x : α) (xs : List α) :
    (xs.foldlM (fun acc y =>
        match (FVal.val (key acc)).cmpMaybe (FVal.val (key y)) with
        | none => none
        | some Ordering.gt => some y
        | some _ => some acc) x)
      = some (xs.foldl (fun acc y => if key acc > key y then y else acc) x) := by
  induction xs generalizing x with
  | nil => rfl
  | cons y ys ih =>
    have hstep : (match (FVal.val (key x)).cmpMaybe (FVal.val (key y)) with
        | none => none
        | some Ordering.gt => some y
        | some _ => some x)
        = some (if key x > key y then y else x) := by
      simp only [FVal.cmpMaybe]
      rcases hc : compare (key x) (key y) with _ | _ | _
      · rw [if_neg (asymm (compare_lt_iff_lt.mp hc))]
      · rw [if_neg (fun hgt => by
          rw [compare_eq_iff_eq.mp hc] at hgt
          exact lt_irrefl _ hgt)]
      · rw [if_pos (compare_gt_iff_gt.mp hc)]
    rw [List.foldlM_cons, hstep]
    simp only [Option.bind_eq_bind, Option.some_bind]
    exact ih _

/-- With real-valued (non-NaN) keys the checked `min_by` never panics and
agrees with the total one. -/
theorem min_by_checked_total {α : Type} (key : α → ℝ) (l : List α) :
    min_by_checked (fun a => FVal.val (key a)) l = some (min_by key l) := by
  cases l with
  | nil => rfl
  | cons x xs =>
    simp only [min_by_checked, min_by]
    rw [foldlM_cmp_eq key x xs]
    rfl

/-- The fuel-indexed recursion agrees with the real one as soon as the
fuel covers the bounces still allowed: the recursion depth from counter
`num_bounces` is at most `MAX_BOUNCES + 2 - min num_bounces (MAX_BOUNCES + 1)`. -/
theorem get_ray_colour_fuel_eq (s : Scene) :
    ∀ (fuel : ℕ) (ray : Ray) (min_distance : ℝ) (num_bounces : ℕ),
      MAX_BOUNCES + 2 - min num_bounces (MAX_BOUNCES + 1) ≤ fuel →
      get_ray_colour_fuel s fuel ray min_distance num_bounces
        = s.get_ray_colour ray min_distance num_bounces := by
  intro fuel
  induction fuel with
  | zero =>
    intro ray md nb h
    exact absurd h (by omega)
  | succ fuel ih =>
    intro ray md nb h
    rw [Scene.get_ray_colour_eq]
    rcases hI : s.get_intersection ray md with _ | ⟨i, m⟩
    · simp only [get_ray_colour_fuel, hI]
    · simp only [get_ray_colour_fuel, hI]
      congr 1
      rw [Scene.get_reflection]
      by_cases hc : MAX_BOUNCES < nb ∨ m.k_reflect = 0
      · rw [if_pos hc, if_pos hc]
      · rw [if_neg hc, if_neg hc]
        simp only []
        congr 1
        apply ih
        have h1 : ¬ MAX_BOUNCES < nb := fun hlt => hc (Or.inl hlt)
        omega

/-- Looking up a pixel in a schedule fold: any schedule containing the
pixel stores exactly the per-pixel render result there. -/
theorem render_fold_lookup (s : Scene) (order : List (ℕ × ℕ))
    (f0 : ℕ × ℕ → Option (ℤ × ℤ × ℤ)) (p : ℕ × ℕ) :
    (order.foldl
        (fun acc q r => if r = q then some (s.render_pixel q.1 q.2) else acc r) f0) p
      = if p ∈ order then some (s.render_pixel p.1 p.2) else f0 p := by
  induction order generalizing f0 with
  | nil => simp
  | cons q rest ih =>
    simp only [List.foldl_cons]
    rw [ih]
    by_cases hp : p ∈ rest
    · rw [if_pos hp, if_pos (List.mem_cons_of_mem _ hp)]
    · rw [if_neg hp]
      by_cases hpq : p = q
      · subst hpq
        rw [if_pos rfl, if_pos (List.mem_cons_self _ _)]
      · rw [if_neg hpq, if_neg (by simp [List.mem_cons, hpq, hp])]

/-! ### Shared concrete inputs for witnesses and counterexamples -/

/-- A camera value (its fields are irrelevant to the claims below). -/
def exCamera : Camera := ⟨⟨0, 0, 0⟩, ⟨1, 0, 0⟩, 1, 1, 1, 1, 1⟩

/-- A material with unit coefficients, no reflection, shine 1. -/
def exMaterial : Material := ⟨⟨1, 1, 1⟩, 1, 1, 1, 0, 1⟩

/-- A scene with no lights and no objects. -/
def exScene0 : Scene := ⟨exCamera, ⟨1 / 2, 1 / 2, 1 / 2⟩, ⟨0, 0, 0⟩, [], []⟩

/-- A ray along the positive x axis from the origin. -/
def exRay0 : Ray := ⟨⟨0, 0, 0⟩, ⟨1, 0, 0⟩⟩

/-! ### Claims -/

/-- C1 (amended): the scene-level query tests every `SceneObject`; when it
returns a hit, that hit comes from some object paired with that object's
material, its parameter is strictly greater than `min_distance` (for every
ray, primary rays with `min_distance = 0` included), and no object reports
a hit with a smaller parameter; it returns nothing exactly when no object
reports a qualifying hit. -/
theorem c1_nearest_hit (s : Scene) (ray : Ray) (min_distance : ℝ) :
    (s.get_intersection ray min_distance = none →
      ∀ obj ∈ s.objects, obj.intersect ray min_distance = none)
  ∧ ∀ i m, s.get_intersection ray min_distance = some (i, m) →
      ((∃ obj ∈ s.objects, obj.intersect ray min_distance = some i ∧ m = obj.material)
        ∧ min_distance < i.t
        ∧ ∀ obj ∈ s.objects, ∀ i2, obj.intersect ray min_distance = some i2 →
            i.t ≤ i2.t) := by
  constructor
  · intro h obj hobj
    have hnil : s.objects.filterMap (fun object =>
        (object.intersect ray min_distance).map (fun x => (x, object.material))) = [] :=
      (min_by_eq_none _ _).mp h
    have hobj2 := (List.filterMap_eq_nil_iff.mp hnil) obj hobj
    exact Option.map_eq_none'.mp hobj2
  · intro i m h
    obtain ⟨hmem, hmin⟩ := min_by_spec _ _ _ h
    rcases List.mem_filterMap.mp hmem with ⟨obj, hobj, hf⟩
    rcases Option.map_eq_some'.mp hf with ⟨x, hx, hpair⟩
    cases hpair
    refine ⟨⟨obj, hobj, hx, rfl⟩, (shape_intersection_some hx).2.1, ?_⟩
    intro obj2 hobj2 i2 hi2
    have hmem2 : (i2, obj2.material) ∈ s.objects.filterMap (fun object =>
        (object.intersect ray min_distance).map (fun y => (y, object.material))) :=
      List.mem_filterMap.mpr ⟨obj2, hobj2, by rw [hi2]; rfl⟩
    exact hmin _ hmem2

/-- C2: the reflection contribution is exactly zero once the bounce
counter exceeds `MAX_BOUNCES` or `k_reflect` is zero; otherwise the
recursion continues with the counter incremented by exactly one; and the
whole ray-colour recursion from counter `num_bounces` is reproduced by at
most `MAX_BOUNCES + 2 - min num_bounces (MAX_BOUNCES + 1)` nested calls,
so the recursion depth is bounded by the ceiling for every scene,
including mutually reflective ones. -/
theorem c2_bounce_ceiling (s : Scene) (intersection : Intersection)
    (material : Material) (ray : Ray) (min_distance : ℝ) (num_bounces fuel : ℕ) :
    ((MAX_BOUNCES < num_bounces ∨ material.k_reflect = 0) →
        s.get_reflection intersection material ray num_bounces = 0)
  ∧ (¬ (MAX_BOUNCES < num_bounces ∨ material.k_reflect = 0) →
        s.get_reflection intersection material ray num_bounces
          = material.k_reflect •
            s.get_ray_colour
              ⟨intersection.pos,
                ray.direction - (2 : ℝ) •
                  ((ray.direction.dot intersection.normal) • intersection.normal)⟩
              0.0001 (num_bounces + 1))
  ∧ (MAX_BOUNCES + 2 - min num_bounces (MAX_BOUNCES + 1) ≤ fuel →
        get_ray_colour_fuel s fuel ray min_distance num_bounces
          = s.get_ray_colour ray min_distance num_bounces) := by
  refine ⟨?_, ?_, ?_⟩
  · intro hc
    rw [Scene.get_reflection, if_pos hc]
  · intro hc
    rw [Scene.get_reflection, if_neg hc]
  · exact get_ray_colour_fuel_eq s fuel ray min_distance num_bounces

/-- C7: when the scene-level query finds no qualifying hit, the
ray-colour computation returns exactly the scene default colour, at every
bounce count. -/
theorem c7_miss_default (s : Scene) (ray : Ray) (min_distance : ℝ)
    (num_bounces : ℕ) (h : s.get_intersection ray min_distance = none) :
    s.get_ray_colour ray min_distance num_bounces = s.default_colour := by
  rw [Scene.get_ray_colour_eq, h]

/-- C7 witness: in a scene with no objects the query misses and the ray
colour is the default colour. -/
theorem c7_witness :
    exScene0.get_intersection exRay0 0 = none
  ∧ exScene0.get_ray_colour exRay0 0 0 = exScene0.default_colour :=
  ⟨rfl, c7_miss_default exScene0 exRay0 0 0 rfl⟩

/-- C9: the stored value of any pixel is the deterministic per-pixel
render result, whatever evaluation schedule produced it, so two schedules
that both cover a pixel agree there. -/
theorem c9_schedule_independent (s : Scene) (o1 o2 : List (ℕ × ℕ)) (p : ℕ × ℕ)
    (h1 : p ∈ o1) (h2 : p ∈ o2) :
    render_fold s o1 p = some (s.render_pixel p.1 p.2)
  ∧ render_fold s o1 p = render_fold s o2 p := by
  have e1 : render_fold s o1 p = some (s.render_pixel p.1 p.2) := by
    unfold render_fold
    rw [render_fold_lookup, if_pos h1]
  have e2 : render_fold s o2 p = some (s.render_pixel p.1 p.2) := by
    unfold render_fold
    rw [render_fold_lookup, if_pos h2]
  exact ⟨e1, e1.trans e2.symm⟩

/-- C9 witness: two concrete schedules covering pixel `(0, 0)` of the
empty scene agree there and store the per-pixel result. -/
theorem c9_witness :
    ((0, 0) : ℕ × ℕ) ∈ [((0, 0) : ℕ × ℕ)]
  ∧ ((0, 0) : ℕ × ℕ) ∈ [((1, 1) : ℕ × ℕ), (0, 0)]
  ∧ (render_fold exScene0 [((0, 0) : ℕ × ℕ)] (0, 0)
        = some (exScene0.render_pixel 0 0)
      ∧ render_fold exScene0 [((0, 0) : ℕ × ℕ)] (0, 0)
        = render_fold exScene0 [((1, 1) : ℕ × ℕ), (0, 0)] (0, 0)) :=
  ⟨by simp, by simp,
    c9_schedule_independent exScene0 _ _ _ (by simp) (by simp)⟩

/-- C10: with the real-valued (hence non-NaN) parameters the per-shape
tests produce, the `partial_cmp(..).unwrap()` comparison never reaches its
panic branch: the checked scene query and the checked sphere root
selection are total and agree with the plain ones. -/
theorem c10_no_panic (s : Scene) (ray : Ray) (min_distance t1 t2 : ℝ) :
    s.get_intersection_checked ray min_distance
      = some (s.get_intersection ray min_distance)
  ∧ sphere_root_selection_checked t1 t2 min_distance
      = some (min_by id (([t1, t2]).filter (fun t => decide (min_distance < t)))) := by
  constructor
  · exact min_by_checked_total (fun p : Intersection × Material => p.1.t) _
  · exact min_by_checked_total id _

/-- Evaluation helper: the square root of a recognized perfect square. -/
theorem sqrt_eval {a b : ℝ} (hb : 0 ≤ b) (h : b ^ 2 = a) : Real.sqrt a = b := by
  rw [← h, Real.sqrt_sq hb]

/-- C4: when the shadow query of every light of the scene reports a hit
(the point is occluded from every light), the surface colour is exactly
the ambient term `k_ambient * (ambient_light ⊙ material.colour)`, with no
diffuse or specular contribution. -/
theorem c4_fully_occluded_ambient (s : Scene) (intersection : Intersection)
    (material : Material)
    (h : ∀ light ∈ s.lights,
      (s.get_intersection (shadow_ray intersection light) 0.1).isSome = true) :
    s.get_surface_point_colour intersection material
      = material.k_ambient • (s.ambient_light.component_mul material.colour) := by
  have hnil : s.lights.filterMap (fun light =>
      if (s.get_intersection (shadow_ray intersection light) 0.1).isSome then none
      else some (light, shadow_ray intersection light)) = [] := by
    rw [List.filterMap_eq_nil_iff]
    intro light hl
    rw [if_pos (h light hl)]
  simp only [Scene.get_surface_point_colour]
  rw [hnil]
  simp only [List.map_nil, vsum, List.foldl_nil]
  exact Vec3.add_zero_right _

/-! Concrete occlusion scene for the C4 witness: the hit point at the
origin, one light at `(0,0,10)`, and a plane `z = 5` between them. -/

/-- Hit point for the C4 witness. -/
def c4I : Intersection := ⟨1, ⟨0, 0, 0⟩, ⟨0, 0, 1⟩⟩

/-- Light for the C4 witness. -/
def c4Light : LightSource := ⟨⟨1, 1, 1⟩, ⟨0, 0, 10⟩⟩

/-- Occluding plane for the C4 witness. -/
def c4Occluder : SceneObject := ⟨exMaterial, .plane ⟨0, 0, 5⟩ ⟨0, 0, 1⟩⟩

/-- Scene for the C4 witness. -/
def c4Scene : Scene := ⟨exCamera, ⟨0, 0, 0⟩, ⟨2, 3, 4⟩, [c4Light], [c4Occluder]⟩

/-- The C4 witness shadow query evaluates to a hit on the occluder. -/
theorem c4_shadow_eval :
    (c4Scene.get_intersection (shadow_ray c4I c4Light) 0.1).isSome = true := by
  have h100 : Real.sqrt 100 = 10 := sqrt_eval (by norm_num) (by norm_num)
  norm_num [c4Scene, c4Light, c4I, c4Occluder, exMaterial, shadow_ray,
    Scene.get_intersection, SceneObject.intersect, Shape.intersection,
    Vec3.normalize, Vec3.norm, Vec3.norm_squared, Vec3.dot, h100,
    List.filterMap, Option.map, min_by, Ray.extend]

/-- C4 witness: in the concrete occlusion scene every (single) light is
blocked and the surface colour is exactly the ambient term. -/
theorem c4_witness :
    (∀ light ∈ c4Scene.lights,
      (c4Scene.get_intersection (shadow_ray c4I light) 0.1).isSome = true)
  ∧ c4Scene.get_surface_point_colour c4I exMaterial
      = exMaterial.k_ambient • (c4Scene.ambient_light.component_mul exMaterial.colour) := by
  have hl : ∀ light ∈ c4Scene.lights,
      (c4Scene.get_intersection (shadow_ray c4I light) 0.1).isSome = true := by
    intro light hmem
    have : light = c4Light := by
      simpa [c4Scene, List.mem_singleton] using hmem
    rw [this]
    exact c4_shadow_eval
  exact ⟨hl, c4_fully_occluded_ambient c4Scene c4I exMaterial hl⟩

/-- C5 (amended): the channel conversion scales by 255, truncates toward
zero (as the saturating `f64 as i32` cast does; the saturation bounds are
absorbed by the clamp), and clamps to `[0, 255]` — it does not round to
nearest. -/
theorem c5_channel_truncates (value : ℝ) :
    channel_float_to_int value = clamp (trunc_to_int (value * 255)) 0 255 := by
  simp only [channel_float_to_int, i32_cast, clamp]
  split_ifs <;> omega

/-- C5 counterexample: at channel value `999/1000` the code yields `254`
(truncation of `254.745`) while the claimed `clamp(round(value*255), 0,
255)` yields `255`. -/
theorem c5_counterexample :
    channel_float_to_int (999 / 1000) = 254
  ∧ channel_claimed (999 / 1000) = 255
  ∧ channel_float_to_int (999 / 1000) ≠ channel_claimed (999 / 1000) := by
  have ht : trunc_to_int ((999 / 1000 : ℝ) * 255) = 254 := by
    unfold trunc_to_int
    rw [if_pos (by norm_num : (0 : ℝ) ≤ (999 / 1000 : ℝ) * 255)]
    rw [Int.floor_eq_iff]
    constructor <;> norm_num
  have h1 : channel_float_to_int (999 / 1000) = 254 := by
    unfold channel_float_to_int i32_cast clamp
    rw [ht]
    decide
  have hr : round ((999 / 1000 : ℝ) * 255) = 255 := by
    rw [round_eq, Int.floor_eq_iff]
    constructor <;> norm_num
  have h2 : channel_claimed (999 / 1000) = 255 := by
    unfold channel_claimed clamp
    rw [hr]
    decide
  refine ⟨h1, h2, ?_⟩
  rw [h1, h2]
  decide

/-- C8 (amended): every returned hit satisfies `pos = origin + t *
direction` with `t` strictly greater than the supplied minimum; the
normal is `normalize(hit - centre)` for a sphere (a unit vector whenever
the hit differs from the centre) and the stored — not necessarily unit —
normal for a plane. -/
theorem c8_intersection_invariants (sh : Shape) (ray : Ray) (min_distance : ℝ)
    (i : Intersection) (h : sh.intersection ray min_distance = some i) :
    i.pos = ray.extend i.t
  ∧ min_distance < i.t
  ∧ (∀ centre radius, sh = .sphere centre radius →
      i.normal = (i.pos - centre).normalize ∧ (i.pos ≠ centre → i.normal.norm = 1))
  ∧ (∀ point n, sh = .plane point n → i.normal = n) := by
  obtain ⟨hpos, ht, hs, hp⟩ := shape_intersection_some h
  refine ⟨hpos, ht, ?_, hp⟩
  intro centre radius hc
  refine ⟨hs centre radius hc, ?_⟩
  intro hne
  rw [hs centre radius hc]
  apply Vec3.norm_normalize
  intro h0
  exact hne ((Vec3.sub_eq_zero_iff _ _).mp h0)

/-- Plane with a stored normal of length 2, for the C8 counterexample. -/
def c8Plane : Shape := .plane ⟨0, 0, 0⟩ ⟨0, 0, 2⟩

/-- Ray hitting `c8Plane`, for the C8 counterexample. -/
def c8Ray : Ray := ⟨⟨1, 1, 5⟩, ⟨0, 0, -1⟩⟩

/-- C8 counterexample: a plane stores the non-unit normal `(0,0,2)` and
the returned intersection carries exactly that normal, of length 2, so
the returned normal field is not a unit vector. -/
theorem c8_counterexample :
    Shape.intersection c8Plane c8Ray 0 = some ⟨5, ⟨1, 1, 0⟩, ⟨0, 0, 2⟩⟩
  ∧ Vec3.norm ⟨0, 0, 2⟩ = 2
  ∧ Vec3.norm ⟨0, 0, 2⟩ ≠ 1 := by
  have h4 : Real.sqrt 4 = 2 := sqrt_eval (by norm_num) (by norm_num)
  have hnorm : Vec3.norm ⟨0, 0, 2⟩ = 2 := by
    norm_num [Vec3.norm, Vec3.norm_squared, Vec3.dot, h4]
  refine ⟨?_, hnorm, by rw [hnorm]; norm_num⟩
  norm_num [Shape.intersection, c8Plane, c8Ray, Vec3.dot, Ray.extend, Vec3.eq_iff]

/-- Plane with a unit stored normal, for the C8 witness. -/
def c8uPlane : Shape := .plane ⟨0, 0, 0⟩ ⟨0, 0, 1⟩

/-- Ray hitting `c8uPlane`, for the C8 witness. -/
def c8uRay : Ray := ⟨⟨0, 0, 5⟩, ⟨0, 0, -1⟩⟩

/-- The C8 witness plane intersection evaluates to a concrete hit. -/
theorem c8u_eval :
    Shape.intersection c8uPlane c8uRay 0 = some ⟨5, ⟨0, 0, 0⟩, ⟨0, 0, 1⟩⟩ := by
  norm_num [Shape.intersection, c8uPlane, c8uRay, Vec3.dot, Ray.extend, Vec3.eq_iff]

/-- C8 witness: the amended invariants at a concrete plane hit. -/
theorem c8_witness :
    Shape.intersection c8uPlane c8uRay 0 = some ⟨5, ⟨0, 0, 0⟩, ⟨0, 0, 1⟩⟩
  ∧ ((⟨5, ⟨0, 0, 0⟩, ⟨0, 0, 1⟩⟩ : Intersection).pos = c8uRay.extend 5
      ∧ (0 : ℝ) < 5
      ∧ (∀ centre radius, c8uPlane = .sphere centre radius →
          (⟨5, ⟨0, 0, 0⟩, ⟨0, 0, 1⟩⟩ : Intersection).normal
              = ((⟨5, ⟨0, 0, 0⟩, ⟨0, 0, 1⟩⟩ : Intersection).pos - centre).normalize
            ∧ ((⟨5, ⟨0, 0, 0⟩, ⟨0, 0, 1⟩⟩ : Intersection).pos ≠ centre →
                (⟨5, ⟨0, 0, 0⟩, ⟨0, 0, 1⟩⟩ : Intersection).normal.norm = 1))
      ∧ (∀ point n, c8uPlane = .plane point n →
          (⟨5, ⟨0, 0, 0⟩, ⟨0, 0, 1⟩⟩ : Intersection).normal = n)) :=
  ⟨c8u_eval, c8_intersection_invariants c8uPlane c8uRay 0 _ c8u_eval⟩

/-! Concrete inputs for the C1 counterexample: a primary ray whose origin
lies exactly on a sphere, so the quadratic has the roots `0` and `-2`. -/

/-- Ray with origin on the C1 sphere surface. -/
def c1Ray : Ray := ⟨⟨0, 0, 0⟩, ⟨-1, 0, 0⟩⟩

/-- Unit sphere centred at `(1,0,0)`, passing through the origin. -/
def c1Sphere : SceneObject := ⟨exMaterial, .sphere ⟨1, 0, 0⟩ 1⟩

/-- Scene holding only `c1Sphere`. -/
def c1Scene : Scene := ⟨exCamera, ⟨0, 0, 0⟩, ⟨0, 0, 0⟩, [], [c1Sphere]⟩

/-- C1 counterexample: for the primary ray (`min_distance = 0`) whose
origin lies on the sphere, a hit with `t = 0 ≥ min_distance` exists — the
claim-worded query returns it — but the code filters strictly and returns
nothing, so the claimed `t ≥ min_distance` rule for primary rays is false
of the code. -/
theorem c1_counterexample :
    c1Scene.get_intersection c1Ray 0 = none
  ∧ c1Scene.get_intersection_claimed c1Ray 0
      = some (⟨0, ⟨0, 0, 0⟩, ⟨-1, 0, 0⟩⟩, exMaterial) := by
  have h4 : Real.sqrt 4 = 2 := sqrt_eval (by norm_num) (by norm_num)
  constructor
  · norm_num [c1Scene, c1Ray, c1Sphere, exMaterial, Scene.get_intersection,
      SceneObject.intersect, Shape.intersection, Vec3.dot, Vec3.norm_squared,
      h4, List.filterMap, min_by, List.filter]
  · norm_num [c1Scene, c1Ray, c1Sphere, exMaterial, Scene.get_intersection_claimed,
      Shape.intersection_claimed, claimed_qualifies, Vec3.dot, Vec3.norm_squared,
      h4, List.filterMap, min_by, List.filter, Vec3.normalize, Vec3.norm,
      Ray.extend, Vec3.eq_iff]

/-- C3 (amended): the specular contribution added for an unoccluded light
is `k_specular * clamp((normalize(l + v)·normal)^shine, 0, 1) *
light.colour` where `l = light.pos - hit` and `v = ray.origin - hit` are
not normalized and the clamp is applied after the exponentiation; in the
shading path the ray supplied is the shadow ray, whose origin is the hit
point itself, so `v = 0` and the half vector degenerates to
`normalize(light.pos - hit)`. -/
theorem c3_specular_formula (s : Scene) (intersection : Intersection)
    (material : Material) (light : LightSource) :
    (∀ ray : Ray,
      material.k_specular • s.get_specular_lighting intersection material light ray
        = material.k_specular •
          (clamp ((((light.pos - intersection.pos)
                + (ray.origin - intersection.pos)).normalize.dot intersection.normal)
              ^ material.shine) 0 1) • light.colour)
  ∧ material.k_specular •
      s.get_specular_lighting intersection material light (shadow_ray intersection light)
      = material.k_specular •
        (clamp (((light.pos - intersection.pos).normalize.dot intersection.normal)
          ^ material.shine) 0 1) • light.colour := by
  constructor
  · intro ray
    rfl
  · have hv : (shadow_ray intersection light).origin - intersection.pos = 0 := by
      simp [shadow_ray, Vec3.eq_iff]
    simp only [Scene.get_specular_lighting, hv, Vec3.add_zero_right]

/-- Hit point for the C3 counterexample. -/
def c3I : Intersection := ⟨1, ⟨0, 0, 0⟩, ⟨1, 0, 0⟩⟩

/-- Material with `k_specular = 1`, `shine = 1` for the C3 counterexample. -/
def c3M : Material := ⟨⟨1, 1, 1⟩, 0, 0, 1, 0, 1⟩

/-- White light at `(3,4,0)` for the C3 counterexample. -/
def c3L : LightSource := ⟨⟨1, 1, 1⟩, ⟨3, 4, 0⟩⟩

/-- Viewing ray with origin `(6,-8,0)` for the C3 counterexample. -/
def c3Ray : Ray := ⟨⟨6, -8, 0⟩, ⟨0, 0, -1⟩⟩

/-- C3 counterexample: with `l = (3,4,0)` (length 5) and `v = (6,-8,0)`
(length 10) the code half vector `normalize(l + v)` is `(9,-4,0)/sqrt 97`
while the claimed half vector `normalize(normalize l + normalize v)` is
`(1,0,0)`; against the normal `(1,0,0)` with `shine = 1` the code yields
`9 / sqrt 97` per channel but the claimed formula yields `1`. -/
theorem c3_counterexample :
    c3M.k_specular • Scene.get_specular_lighting exScene0 c3I c3M c3L c3Ray
      = (9 / Real.sqrt 97) • (⟨1, 1, 1⟩ : Vec3)
  ∧ specular_claimed c3I c3M c3L c3Ray = (⟨1, 1, 1⟩ : Vec3)
  ∧ c3M.k_specular • Scene.get_specular_lighting exScene0 c3I c3M c3L c3Ray
      ≠ specular_claimed c3I c3M c3L c3Ray := by
  have h97pos : (0 : ℝ) < Real.sqrt 97 := Real.sqrt_pos.mpr (by norm_num)
  have h97gt : (9 : ℝ) < Real.sqrt 97 := by
    rw [show (9 : ℝ) = Real.sqrt 81 from (sqrt_eval (by norm_num) (by norm_num)).symm]
    exact Real.sqrt_lt_sqrt (by norm_num) (by norm_num)
  have hlt1 : 9 / Real.sqrt 97 < 1 := (div_lt_one h97pos).mpr h97gt
  have hge0 : (0 : ℝ) ≤ 9 / Real.sqrt 97 := by positivity
  have hns : Vec3.norm_squared ⟨9, -4, 0⟩ = 97 := by
    norm_num [Vec3.norm_squared, Vec3.dot]
  have hdot : (Vec3.normalize ⟨9, -4, 0⟩).dot ⟨1, 0, 0⟩ = 9 / Real.sqrt 97 := by
    norm_num [Vec3.normalize, Vec3.norm, hns, Vec3.dot]
    ring
  have hsum : (c3L.pos - c3I.pos) + (c3Ray.origin - c3I.pos) = (⟨9, -4, 0⟩ : Vec3) := by
    norm_num [c3L, c3I, c3Ray, Vec3.eq_iff]
  have hcode : c3M.k_specular • Scene.get_specular_lighting exScene0 c3I c3M c3L c3Ray
      = (9 / Real.sqrt 97) • (⟨1, 1, 1⟩ : Vec3) := by
    simp only [Scene.get_specular_lighting]
    rw [hsum]
    simp only [c3I, c3M, c3L]
    rw [hdot, Real.rpow_one, clamp, if_neg (not_lt.mpr hge0),
      if_neg (not_lt.mpr (le_of_lt hlt1))]
    norm_num [Vec3.eq_iff]
  have h25 : Real.sqrt 25 = 5 := sqrt_eval (by norm_num) (by norm_num)
  have h100 : Real.sqrt 100 = 10 := sqrt_eval (by norm_num) (by norm_num)
  have hl : Vec3.normalize ⟨3, 4, 0⟩ = ⟨3 / 5, 4 / 5, 0⟩ := by
    norm_num [Vec3.normalize, Vec3.norm, Vec3.norm_squared, Vec3.dot, h25, Vec3.eq_iff]
  have hvn : Vec3.normalize ⟨6, -8, 0⟩ = ⟨3 / 5, -(4 / 5), 0⟩ := by
    norm_num [Vec3.normalize, Vec3.norm, Vec3.norm_squared, Vec3.dot, h100, Vec3.eq_iff]
  have hsum2 : (⟨3 / 5, 4 / 5, 0⟩ : Vec3) + ⟨3 / 5, -(4 / 5), 0⟩ = ⟨6 / 5, 0, 0⟩ := by
    norm_num [Vec3.eq_iff]
  have hnormsum : Vec3.normalize ⟨6 / 5, 0, 0⟩ = ⟨1, 0, 0⟩ := by
    have hs : Real.sqrt (36 / 25) = 6 / 5 := sqrt_eval (by norm_num) (by norm_num)
    norm_num [Vec3.normalize, Vec3.norm, Vec3.norm_squared, Vec3.dot, hs, Vec3.eq_iff]
  have hsub1 : (⟨3, 4, 0⟩ : Vec3) - ⟨0, 0, 0⟩ = ⟨3, 4, 0⟩ := by
    norm_num [Vec3.eq_iff]
  have hsub2 : (⟨6, -8, 0⟩ : Vec3) - ⟨0, 0, 0⟩ = ⟨6, -8, 0⟩ := by
    norm_num [Vec3.eq_iff]
  have hclaim : specular_claimed c3I c3M c3L c3Ray = (⟨1, 1, 1⟩ : Vec3) := by
    simp only [specular_claimed, c3I, c3M, c3L, c3Ray]
    rw [hsub1, hsub2, hl, hvn, hsum2, hnormsum]
    rw [show (Vec3.dot ⟨1, 0, 0⟩ ⟨1, 0, 0⟩ : ℝ) = 1 by norm_num [Vec3.dot]]
    rw [clamp, if_neg (by norm_num), if_neg (by norm_num), Real.one_rpow]
    norm_num [Vec3.eq_iff]
  refine ⟨hcode, hclaim, ?_⟩
  intro heq
  rw [hcode, hclaim] at heq
  have hx := ((Vec3.eq_iff _ _).mp heq).1
  simp only [Vec3.smul_x] at hx
  rw [mul_one] at hx
  exact absurd hx (ne_of_lt hlt1)

/-- Centre of the C6 witness sphere. -/
def c6Centre : Vec3 := ⟨0, 0, 0⟩

/-- Ray from inside the C6 witness sphere (its centre). -/
def c6Ray : Ray := ⟨⟨0, 0, 0⟩, ⟨1, 0, 0⟩⟩

/-- C6: with `min_distance = 0`, if the quadratic has one negative and one
positive root (`t2 < 0 < t1`, origin inside the sphere) the returned
parameter is the positive exit root `t1`; if both roots are positive
(`0 < t2`, origin outside) the returned parameter is the smaller entry
root `t2`. -/
theorem c6_sphere_root_selection (centre : Vec3) (radius : ℝ) (ray : Ray)
    (hdisc : 0 ≤ sphere_disc centre radius ray) :
    ((sphere_root2 centre radius ray < 0 ∧ 0 < sphere_root1 centre radius ray) →
      Shape.intersection (.sphere centre radius) ray 0
        = some ⟨sphere_root1 centre radius ray,
            ray.extend (sphere_root1 centre radius ray),
            (ray.extend (sphere_root1 centre radius ray) - centre).normalize⟩)
  ∧ (0 < sphere_root2 centre radius ray →
      Shape.intersection (.sphere centre radius) ray 0
        = some ⟨sphere_root2 centre radius ray,
            ray.extend (sphere_root2 centre radius ray),
            (ray.extend (sphere_root2 centre radius ray) - centre).normalize⟩) := by
  constructor
  · rintro ⟨h2, h1⟩
    rw [sphere_intersection_eq, if_neg (not_lt.mpr hdisc)]
    have hf : ([sphere_root1 centre radius ray, sphere_root2 centre radius ray]).filter
        (fun t => decide ((0 : ℝ) < t)) = [sphere_root1 centre radius ray] := by
      simp only [List.filter_cons, List.filter_nil, decide_eq_true_eq]
      rw [if_pos h1, if_neg (not_lt.mpr (le_of_lt h2))]
    rw [hf]
    simp [min_by]
  · intro h2
    have ha : sphere_a ray ≠ 0 := by
      intro ha0
      rw [sphere_root2, ha0] at h2
      norm_num at h2
    have hapos : 0 < sphere_a ray :=
      lt_of_le_of_ne (Vec3.norm_squared_nonneg _) (Ne.symm ha)
    have h21 : sphere_root2 centre radius ray ≤ sphere_root1 centre radius ray := by
      rw [sphere_root1, sphere_root2]
      apply div_le_div_of_nonneg_right ?_ (by positivity)
      case _ =>
        have := Real.sqrt_nonneg (sphere_disc centre radius ray)
        linarith
    have h1 : 0 < sphere_root1 centre radius ray := lt_of_lt_of_le h2 h21
    rw [sphere_intersection_eq, if_neg (not_lt.mpr hdisc)]
    have hf : ([sphere_root1 centre radius ray, sphere_root2 centre radius ray]).filter
        (fun t => decide ((0 : ℝ) < t))
        = [sphere_root1 centre radius ray, sphere_root2 centre radius ray] := by
      simp only [List.filter_cons, List.filter_nil, decide_eq_true_eq]
      rw [if_pos h1, if_pos h2]
    rw [hf]
    simp only [min_by, List.foldl_cons, List.foldl_nil, id_eq, Option.map_some']
    by_cases hgt : sphere_root1 centre radius ray > sphere_root2 centre radius ray
    · rw [if_pos hgt]
    · have heq : sphere_root1 centre radius ray = sphere_root2 centre radius ray :=
        le_antisymm (not_lt.mp hgt) h21
      rw [if_neg hgt, heq]

/-- Discriminant of the C6 witness configuration is `4 ≥ 0`. -/
theorem c6_disc_eval : 0 ≤ sphere_disc c6Centre 1 c6Ray := by
  norm_num [sphere_disc, sphere_a, sphere_b, sphere_c, Vec3.dot, Vec3.norm_squared,
    c6Centre, c6Ray]

/-- C6 witness: the root-selection theorem instantiated at the unit sphere
about the origin with the ray starting at the centre (roots `1` and `-1`). -/
theorem c6_witness :
    0 ≤ sphere_disc c6Centre 1 c6Ray
  ∧ (((sphere_root2 c6Centre 1 c6Ray < 0 ∧ 0 < sphere_root1 c6Centre 1 c6Ray) →
        Shape.intersection (.sphere c6Centre 1) c6Ray 0
          = some ⟨sphere_root1 c6Centre 1 c6Ray,
              c6Ray.extend (sphere_root1 c6Centre 1 c6Ray),
              (c6Ray.extend (sphere_root1 c6Centre 1 c6Ray) - c6Centre).normalize⟩)
      ∧ (0 < sphere_root2 c6Centre 1 c6Ray →
        Shape.intersection (.sphere c6Centre 1) c6Ray 0
          = some ⟨sphere_root2 c6Centre 1 c6Ray,
              c6Ray.extend (sphere_root2 c6Centre 1 c6Ray),
              (c6Ray.extend (sphere_root2 c6Centre 1 c6Ray) - c6Centre).normalize⟩)) :=
  ⟨c6_disc_eval, c6_sphere_root_selection c6Centre 1 c6Ray c6_disc_eval⟩

end Raytracer
